import Mathlib

/-!
Verification development for the go-localization-large-backend repository.

The embedding below translates the Go source into Lean:

* `fnv1a32`, `getPayloadIndex`, `getPayloadForUser` — the FNV-1a based
  deterministic assignment in `main.go` (`getPayloadForUser`).
* `processFile`, `loadPayloads`, `buildStore` — the payload-store loader in
  `main.go`'s process-wide `init` routine.
* `experiment` — the `POST /experiment` handler.
* `calculatePercentile`, `recordEvent`, throughput computations — the load
  generator (`cmd/loadtest/main.go`).
* `buildUserPayloads`, `analyzeResults` — the allocation consistency
  verifier (`cmd/allocationtest/main.go`).

Machine integers are modelled as `Nat`/`Int` with explicit reduction
modulo `2 ^ 32` where the Go code works in `uint32`.  Go's `float64`
arithmetic in the statistics code is modelled by exact rational
arithmetic (`ℚ`); the float→int conversion `int(x)` is modelled by
truncation toward zero (`ratTrunc`).  Fallible operations (slice
indexing that can panic, request-body parsing) return `Option`.
-/

/-! ## FNV-1a hashing and deterministic assignment

Go source (`main.go`):

    func getPayloadForUser(userID string) Payload {
        h := fnv.New32a()
        h.Write([]byte(userID))
        index := int(h.Sum32()) % len(payloads)
        return payloads[index]
    }

`fnv.New32a` is the Go standard library 32-bit FNV-1a hash: the state
starts at the offset basis 2166136261 and each byte `b` updates the
state `h` to `(h XOR b) * 16777619` truncated to 32 bits.
-/

/-- FNV-1a 32-bit offset basis, `0x811c9dc5`. -/
def fnvOffsetBasis : Nat := 0x811c9dc5

/-- FNV-1a 32-bit prime, `0x01000193`. -/
def fnvPrime : Nat := 0x01000193

/-- One byte step of Go's `fnv.New32a.Write`: xor the byte into the state,
then multiply by the FNV prime, in `uint32` arithmetic. -/
def fnv1aStep (h b : Nat) : Nat := ((h ^^^ b) * fnvPrime) % 2 ^ 32

/-- The 32-bit FNV-1a hash of a byte sequence, as computed by
`fnv.New32a(); h.Write(bytes); h.Sum32()`. -/
def fnv1a32 (bytes : List Nat) : Nat := bytes.foldl fnv1aStep fnvOffsetBasis

/-- UTF-8 encoding of one character, the byte sequence Go's
`[]byte(s)` conversion produces for each rune. -/
def utf8Bytes (c : Char) : List Nat :=
  let n := c.toNat
  if n < 0x80 then [n]
  else if n < 0x800 then [0xC0 ||| (n >>> 6), 0x80 ||| (n &&& 0x3F)]
  else if n < 0x10000 then
    [0xE0 ||| (n >>> 12), 0x80 ||| ((n >>> 6) &&& 0x3F), 0x80 ||| (n &&& 0x3F)]
  else
    [0xF0 ||| (n >>> 18), 0x80 ||| ((n >>> 12) &&& 0x3F),
     0x80 ||| ((n >>> 6) &&& 0x3F), 0x80 ||| (n &&& 0x3F)]

/-- The bytes of a Go string (UTF-8), i.e. `[]byte(s)`. -/
def strBytes (s : String) : List Nat := s.data.flatMap utf8Bytes

/-- The index computation `int(h.Sum32()) % len(payloads)` of
`getPayloadForUser`, at the `Int` level: the `uint32` hash is converted
to a (64-bit) `int`, which preserves the value, and `%` is Go's
truncated-division remainder, `Int.tmod`. -/
def assignIndexInt (key : List Nat) (n : Nat) : Int :=
  Int.tmod (Int.ofNat (fnv1a32 key)) (Int.ofNat n)

/-- The same index as a natural number: for a non-negative dividend Go's
`%` agrees with `Nat` remainder (`assignIndexInt_eq_ofNat` below). -/
def getPayloadIndex (key : List Nat) (n : Nat) : Nat := fnv1a32 key % n

/-- A payload variant: `type Payload struct { Name, Content string }`. -/
structure Payload where
  name : String
  content : String
deriving DecidableEq, Repr

/-- `getPayloadForUser` against an explicit store: look up the payload at
the FNV-1a index.  `none` models the panic of `payloads[index]` on an
out-of-range index (unreachable when the store is non-empty). -/
def getPayloadForUser (store : List Payload) (userID : String) : Option Payload :=
  store.get? (getPayloadIndex (strBytes userID) store.length)

theorem fnv1a32_lt (bytes : List Nat) : fnv1a32 bytes < 2 ^ 32 := by
  induction bytes using List.reverseRecOn with
  | nil => simp [fnv1a32, fnvOffsetBasis]
  | append_singleton xs x _ =>
      simp only [fnv1a32, List.foldl_append, List.foldl_cons, List.foldl_nil]
      exact Nat.mod_lt _ (by norm_num)

theorem assignIndexInt_eq_ofNat (key : List Nat) (n : Nat) :
    assignIndexInt key n = (getPayloadIndex key n : Int) := rfl

theorem getPayloadIndex_lt (key : List Nat) (n : Nat) (hn : 0 < n) :
    getPayloadIndex key n < n := Nat.mod_lt _ hn

/-- C1: for every key string `k` and every variant count `n > 0`, the
index computed by `getPayloadForUser` (the 32-bit FNV-1a hash of `k`,
converted to `int` and reduced with Go's `%` by the store size)
satisfies `0 ≤ i < n`; consequently the store lookup `payloads[index]`
is always in bounds for a store of size `n`. -/
theorem assign_index_in_range (k : String) (n : Nat) (hn : 0 < n) :
    0 ≤ assignIndexInt (strBytes k) n ∧ assignIndexInt (strBytes k) n < (n : Int) ∧
      ∀ store : List Payload, store.length = n →
        ∃ p, getPayloadForUser store k = some p := by
  refine ⟨by rw [assignIndexInt_eq_ofNat]; exact Int.natCast_nonneg _, ?_, ?_⟩
  · rw [assignIndexInt_eq_ofNat]
    exact_mod_cast getPayloadIndex_lt (strBytes k) n hn
  · intro store hlen
    have hlt : getPayloadIndex (strBytes k) store.length < store.length := by
      rw [hlen]; exact getPayloadIndex_lt _ _ hn
    exact ⟨store.get ⟨_, hlt⟩, List.get?_eq_get hlt⟩

/-- Witness for C1 at `k = "user-123"`, `n = 6`, and a concrete store of
six variants. -/
theorem assign_index_in_range_witness :
    0 ≤ assignIndexInt (strBytes "user-123") 6 ∧
      assignIndexInt (strBytes "user-123") 6 < (6 : Int) ∧
      ∀ store : List Payload, store.length = 6 →
        ∃ p, getPayloadForUser store "user-123" = some p :=
  assign_index_in_range "user-123" 6 (by decide)

/-- The per-byte step exactly as the spec words it: "one multiply-then-xor
step with prime 0x01000193" — multiply the state by the prime, then xor
the byte in, in 32-bit arithmetic. -/
def specStepMulXor (h b : Nat) : Nat := ((h * fnvPrime) ^^^ b) % 2 ^ 32

/-- The hash the spec's words describe: start at the offset basis and
apply one multiply-then-xor step per byte, in byte order. -/
def specHashMulXor (bytes : List Nat) : Nat := bytes.foldl specStepMulXor fnvOffsetBasis

/-- The spec-described assignment index: the multiply-then-xor hash
reduced modulo the variant count using unsigned arithmetic. -/
def specIndexMulXor (key : List Nat) (n : Nat) : Nat := specHashMulXor key % n

/-- Counterexample for C2: for the one-byte key "a" and variant count 5
the multiply-then-xor construction the claim describes yields index 1,
while the code's FNV-1a hash (xor-then-multiply) yields index 0. -/
theorem assign_hash_step_order_counterexample :
    specIndexMulXor (strBytes "a") 5 = 1 ∧ getPayloadIndex (strBytes "a") 5 = 0 ∧
      specHashMulXor (strBytes "a") ≠ fnv1a32 (strBytes "a") ∧
      Int.ofNat (specIndexMulXor (strBytes "a") 5) ≠ assignIndexInt (strBytes "a") 5 := by
  decide

/-- Accumulator-passing form of the spec's amended construction: starting
from state `h`, consume each byte in order with one xor-then-multiply
step (`state := (state XOR byte) * prime` in 32-bit arithmetic). -/
def specHashFnv1aFrom (h : Nat) : List Nat → Nat
  | [] => h
  | b :: bs => specHashFnv1aFrom (((h ^^^ b) * fnvPrime) % 2 ^ 32) bs

/-- The amended spec construction: a 32-bit hash starting at offset basis
0x811c9dc5 with one xor-then-multiply step per byte, in byte order. -/
def specHashFnv1a (bytes : List Nat) : Nat := specHashFnv1aFrom fnvOffsetBasis bytes

/-- The amended spec assignment index: that hash reduced modulo the
variant count using unsigned arithmetic. -/
def specIndexFnv1a (key : List Nat) (n : Nat) : Nat := specHashFnv1a key % n

theorem specHashFnv1aFrom_eq_foldl (bs : List Nat) (h : Nat) :
    specHashFnv1aFrom h bs = bs.foldl fnv1aStep h := by
  induction bs generalizing h with
  | nil => rfl
  | cons b bs ih => simp only [specHashFnv1aFrom, List.foldl_cons, fnv1aStep, ih]

/-- C2 (amended): for every key string, the hash used for assignment
equals the spec construction with the step order fixed to xor-then-
multiply: a 32-bit hash starting at offset basis 0x811c9dc5 that, for
each byte of the key in byte order, xors the byte into the state and
then multiplies by prime 0x01000193, after which the index is that hash
reduced modulo the variant count using unsigned arithmetic. -/
theorem assign_hash_is_fnv1a (k : String) (n : Nat) :
    fnv1a32 (strBytes k) = specHashFnv1a (strBytes k) ∧
      assignIndexInt (strBytes k) n = Int.ofNat (specIndexFnv1a (strBytes k) n) := by
  have hh : fnv1a32 (strBytes k) = specHashFnv1a (strBytes k) := by
    rw [specHashFnv1a, specHashFnv1aFrom_eq_foldl]; rfl
  exact ⟨hh, by rw [assignIndexInt_eq_ofNat]; simp [getPayloadIndex, specIndexFnv1a, hh]⟩

/-- C8: the empty key is legal, causes no error, and is assigned the
index equal to the FNV-1a offset basis 0x811c9dc5 reduced modulo the
variant count (hashing zero bytes leaves the hash at the offset basis);
the index is in range and the store lookup succeeds. -/
theorem empty_key_assigns_offset_basis (n : Nat) (hn : 0 < n) :
    getPayloadIndex (strBytes "") n = fnvOffsetBasis % n ∧
      getPayloadIndex (strBytes "") n < n ∧
      ∀ store : List Payload, store.length = n →
        ∃ p, getPayloadForUser store "" = some p := by
  refine ⟨rfl, getPayloadIndex_lt _ _ hn, ?_⟩
  intro store hlen
  have hlt : getPayloadIndex (strBytes "") store.length < store.length := by
    rw [hlen]; exact getPayloadIndex_lt _ _ hn
  exact ⟨store.get ⟨_, hlt⟩, List.get?_eq_get hlt⟩

/-- Witness for C8 at `n = 7`. -/
theorem empty_key_assigns_offset_basis_witness :
    getPayloadIndex (strBytes "") 7 = fnvOffsetBasis % 7 ∧
      getPayloadIndex (strBytes "") 7 < 7 ∧
      ∀ store : List Payload, store.length = 7 →
        ∃ p, getPayloadForUser store "" = some p :=
  empty_key_assigns_offset_basis 7 (by decide)

/-! ## JSON values and the payload-store loader

The `init` routine of `main.go` reads each `.json` file, unmarshals it
into `map[string]interface{}` (which succeeds exactly for JSON whose
top-level value is an object or the literal `null` — `encoding/json`
stores `null` into a map as a nil map with no error), explodes a
top-level `"payloads"` array into one variant per element, and
otherwise stores the whole raw file content as a single variant; a file
whose unmarshal fails (invalid JSON, or a valid top-level array,
string, number or boolean) is skipped with a warning.  `log.Fatal`
when zero variants were produced is modelled by `buildStore` returning
`none`.
-/

/-- A JSON value.  Numbers are modelled as integers; no claim depends on
the numeric domain. -/
inductive Json where
  | null : Json
  | bool : Bool → Json
  | num : Int → Json
  | str : String → Json
  | arr : List Json → Json
  | obj : List (String × Json) → Json

/-- Escaping of one character inside a JSON string literal, as produced
by `encoding/json.Marshal` (quote and backslash; further escaping of
control and HTML characters is not exercised by any claim). -/
def escapeChar (c : Char) : List Char :=
  if c = '\\' then ['\\', '\\']
  else if c = '"' then ['\\', '"']
  else [c]

/-- A JSON string literal: surrounding quotes plus escaped characters. -/
def jsonStrLit (s : String) : String :=
  "\"" ++ String.mk (s.data.flatMap escapeChar) ++ "\""

mutual

/-- Compact serialization of a JSON value, as `encoding/json.Marshal`
produces for a value decoded from `interface{}`. -/
def Json.serialize : Json → String
  | .null => "null"
  | .bool true => "true"
  | .bool false => "false"
  | .num i => toString i
  | .str s => jsonStrLit s
  | .arr items => "[" ++ Json.serializeItems items ++ "]"
  | .obj fields => "\x7b" ++ Json.serializeFields fields ++ "\x7d"

/-- Comma-separated serialization of array elements. -/
def Json.serializeItems : List Json → String
  | [] => ""
  | [j] => Json.serialize j
  | j :: rest => Json.serialize j ++ "," ++ Json.serializeItems rest

/-- Comma-separated serialization of object members. -/
def Json.serializeFields : List (String × Json) → String
  | [] => ""
  | [(k, v)] => jsonStrLit k ++ ":" ++ Json.serialize v
  | (k, v) :: rest => jsonStrLit k ++ ":" ++ Json.serialize v ++ "," ++ Json.serializeFields rest

end

/-- Lookup of a key in a decoded JSON object, modelling Go's
`parsed["payloads"]` map access (keys of an unmarshalled object are
unique). -/
def lookupField (fields : List (String × Json)) (key : String) : Option Json :=
  match fields with
  | [] => none
  | (k, v) :: rest => if k = key then some v else lookupField rest key

/-- A source file handed to the loader: its filename, its raw content,
and the result of parsing that content as JSON (`none` when the content
is not valid JSON).  Directory enumeration, the `.json` filter and the
lexicographic sort happen before this list is formed and are peripheral
plumbing. -/
structure SrcFile where
  name : String
  raw : String
  parsed : Option Json

/-- One iteration of the loading loop in `init`: Go unmarshals into
`map[string]interface{}`, which fails (file skipped with a warning) when
the content is not valid JSON or its top-level value is an array, a
string, a number or a boolean, but succeeds for an object and for the
literal `null` (the map is left nil); a top-level `"payloads"` array is
exploded into one variant per element named `<filename>[<index>]`;
otherwise — object without such an array, or `null`, whose nil map has
no `"payloads"` key — the whole raw file content becomes one variant
named after the filename. -/
def processFile (acc : List Payload) (f : SrcFile) : List Payload :=
  match f.parsed with
  | none => acc
  | some (Json.obj fields) =>
      match lookupField fields "payloads" with
      | some (Json.arr items) =>
          acc ++ items.enum.map fun p =>
            ⟨f.name ++ "[" ++ toString p.1 ++ "]", Json.serialize p.2⟩
      | _ => acc ++ [⟨f.name, f.raw⟩]
  | some Json.null => acc ++ [⟨f.name, f.raw⟩]
  | some _ => acc

/-- The full loading loop of `init` over the sorted file list. -/
def loadPayloads (files : List SrcFile) : List Payload :=
  files.foldl processFile []

/-- The boot sequence: run the loader, then `log.Fatal` (modelled as
`none`) if zero variants were produced (`len(payloads) == 0`). -/
def buildStore (files : List SrcFile) : Option (List Payload) :=
  match loadPayloads files with
  | [] => none
  | p :: ps => some (p :: ps)

/-- Counterexample for C5: the file `arr.json` whose content `[1,2,3]`
is a valid JSON document with no top-level "payloads" array, yet the
loader skips it (unmarshal into `map[string]interface{}` fails for a
non-object top level) instead of making it one variant. -/
theorem loader_nonobject_json_counterexample :
    processFile [] ⟨"arr.json", "[1,2,3]", some (Json.arr [.num 1, .num 2, .num 3])⟩ = [] ∧
      processFile [] ⟨"arr.json", "[1,2,3]", some (Json.arr [.num 1, .num 2, .num 3])⟩ ≠
        [⟨"arr.json", "[1,2,3]"⟩] := by
  decide

/-- C5 (amended): per-file loader behavior — a file that fails to parse
as JSON is skipped and the build continues; a file that parses to a
valid JSON document whose top-level value is an array, a string, a
number or a boolean is likewise skipped with a warning (unmarshal into
`map[string]interface{}` rejects it); a file that parses to a top-level
object without a "payloads" array becomes exactly one PayloadVariant
holding the entire raw file content, named after the filename; and a
file whose content is the JSON literal `null` also becomes exactly one
such PayloadVariant, since unmarshalling `null` into a map succeeds,
leaving a nil map with no "payloads" key. -/
theorem loader_per_file_behavior (acc : List Payload) (f : SrcFile) :
    (f.parsed = none → processFile acc f = acc) ∧
      (∀ j, f.parsed = some j → (∀ fields, j ≠ Json.obj fields) →
        j ≠ Json.null → processFile acc f = acc) ∧
      (∀ fields, f.parsed = some (Json.obj fields) →
        (∀ items, lookupField fields "payloads" ≠ some (Json.arr items)) →
        processFile acc f = acc ++ [⟨f.name, f.raw⟩]) ∧
      (f.parsed = some Json.null →
        processFile acc f = acc ++ [⟨f.name, f.raw⟩]) := by
  refine ⟨?_, ?_, ?_, ?_⟩
  · intro h
    unfold processFile
    rw [h]
  · intro j hj hne hnull
    unfold processFile
    rw [hj]
    cases j with
    | obj fields => exact absurd rfl (hne fields)
    | null => exact absurd rfl hnull
    | bool b => rfl
    | num i => rfl
    | str s => rfl
    | arr items => rfl
  · intro fields hf hno
    unfold processFile
    rw [hf]
    show (match lookupField fields "payloads" with
      | some (Json.arr items) =>
          acc ++ items.enum.map fun p =>
            ⟨f.name ++ "[" ++ toString p.1 ++ "]", Json.serialize p.2⟩
      | _ => acc ++ [⟨f.name, f.raw⟩]) = acc ++ [⟨f.name, f.raw⟩]
    cases hpl : lookupField fields "payloads" with
    | none => rfl
    | some j =>
        cases j with
        | arr items => exact absurd hpl (hno items)
        | null => rfl
        | bool b => rfl
        | num i => rfl
        | str s => rfl
        | obj o => rfl
  · intro h
    unfold processFile
    rw [h]

/-- Witness for C5 (amended) at a one-member object file and a `null`
file. -/
theorem loader_per_file_behavior_witness :
    processFile [] ⟨"x.json", "RAW", some (Json.obj [("a", Json.num 1)])⟩ =
        [⟨"x.json", "RAW"⟩] ∧
      processFile [] ⟨"null.json", "null", some Json.null⟩ =
        [⟨"null.json", "null"⟩] := by
  constructor
  · have h := (loader_per_file_behavior []
      ⟨"x.json", "RAW", some (Json.obj [("a", Json.num 1)])⟩).2.2.1
      [("a", Json.num 1)] rfl (by intro items; simp [lookupField])
    simpa using h
  · have h := (loader_per_file_behavior []
      ⟨"null.json", "null", some Json.null⟩).2.2.2 rfl
    simpa using h

/-- C6: loading an empty directory fails the boot (no store is
produced), and whenever the boot succeeds — hence whenever the service
is serving requests — the payload store is non-empty. -/
theorem boot_requires_nonempty_store :
    buildStore [] = none ∧
      ∀ (files : List SrcFile) (ps : List Payload),
        buildStore files = some ps → 0 < ps.length := by
  refine ⟨rfl, fun files ps h => ?_⟩
  unfold buildStore at h
  cases hl : loadPayloads files with
  | nil => rw [hl] at h; exact absurd h (by simp)
  | cons p rest =>
      rw [hl] at h
      have : p :: rest = ps := by simpa using h
      subst this
      simp

/-- Witness for C6 at a one-file directory. -/
theorem boot_requires_nonempty_store_witness :
    0 < ([⟨"x.json", "RAW"⟩] : List Payload).length :=
  boot_requires_nonempty_store.2 [⟨"x.json", "RAW", some (Json.obj [])⟩]
    [⟨"x.json", "RAW"⟩] (by decide)


/-! ## The POST /experiment handler

Go source (`main.go`):

    func experiment(c *fiber.Ctx) error {
        var req model.Request
        if err := c.BodyParser(&req); err != nil {
            return c.Status(fiber.StatusBadRequest).JSON(fiber.Map{"error": "Invalid request body"})
        }
        if req.UserID == "" {
            return c.Status(fiber.StatusBadRequest).JSON(fiber.Map{"error": "userId is required"})
        }
        payload := getPayloadForUser(req.UserID)
        response := model.Response{
            ExperimentID:        "exp-localization-v1",
            SelectedPayloadName: payload.Name,
            Payload:             json.RawMessage(payload.Content),
        }
        return c.JSON(response)
    }

The request body parse is modelled by its result: `none` when
`BodyParser` fails, `some req` otherwise (a body without a `userId`
field leaves `req.UserID` at its zero value `""`).
-/

/-- `model.Request`: the parsed request body, one `userId` field. -/
structure ModelRequest where
  userID : String

/-- `model.Response` (`pkg/model/response.go`): a fixed experiment id,
the selected variant's name, and the variant's content carried as
`json.RawMessage` — raw JSON text spliced verbatim into the response. -/
structure ModelResponse where
  experimentID : String
  selectedPayloadName : String
  payload : String

/-- The outcome of one handler invocation: a 400 with an error message,
or a 200 with a `model.Response`. -/
inductive HandlerResult where
  | badRequest : String → HandlerResult
  | ok : ModelResponse → HandlerResult

/-- The HTTP status code of a handler outcome. -/
def statusCode : HandlerResult → Nat
  | .badRequest _ => 400
  | .ok _ => 200

/-- The JSON text of the response body.  For a 400, `fiber.Map` is
marshalled; for a 200, `model.Response` is marshalled field by field in
struct order, with the `json.RawMessage` payload spliced in verbatim
(never re-escaped as a string). -/
def renderBody : HandlerResult → String
  | .badRequest e => Json.serialize (Json.obj [("error", Json.str e)])
  | .ok r =>
      "\x7b" ++ (jsonStrLit "experimentId" ++ ":" ++ jsonStrLit r.experimentID ++ "," ++
        (jsonStrLit "selectedPayloadName" ++ ":" ++ jsonStrLit r.selectedPayloadName ++ "," ++
          (jsonStrLit "payload" ++ ":" ++ r.payload))) ++ "\x7d"

/-- The `POST /experiment` handler.  `none` models the panic of an
out-of-range index in `getPayloadForUser`, unreachable for a non-empty
store. -/
def experiment (store : List Payload) (body : Option ModelRequest) : Option HandlerResult :=
  match body with
  | none => some (.badRequest "Invalid request body")
  | some req =>
      if req.userID = "" then some (.badRequest "userId is required")
      else
        match getPayloadForUser store req.userID with
        | none => none
        | some p => some (.ok ⟨"exp-localization-v1", p.name, p.content⟩)

theorem getPayloadForUser_isSome (store : List Payload) (hs : store ≠ []) (u : String) :
    ∃ p, getPayloadForUser store u = some p := by
  have hlt : getPayloadIndex (strBytes u) store.length < store.length :=
    getPayloadIndex_lt _ _ (List.length_pos.mpr hs)
  exact ⟨store.get ⟨_, hlt⟩, List.get?_eq_get hlt⟩

/-- C3: against a fixed payload store, all `r` invocations of the
handler with the same non-empty `userId` yield the same
`selectedPayloadName` — the handler's result is a function of the store
and the `userId` alone (the embedding has no randomness, clock, or
per-call state), so every one of the `r` responses carries the name of
the variant at the user's FNV-1a index. -/
theorem experiment_consistent_per_user (store : List Payload) (hs : store ≠ [])
    (u : String) (hu : u ≠ "") (r : Nat) :
    ∃ p, getPayloadForUser store u = some p ∧
      ∀ res ∈ List.replicate r (experiment store (some ⟨u⟩)),
        res = some (.ok ⟨"exp-localization-v1", p.name, p.content⟩) := by
  obtain ⟨p, hp⟩ := getPayloadForUser_isSome store hs u
  refine ⟨p, hp, fun res hres => ?_⟩
  rw [List.eq_of_mem_replicate hres]
  simp [experiment, hu, hp]

/-- Witness for C3: a two-variant store, `userId = "user-123"`, 5
requests. -/
theorem experiment_consistent_per_user_witness :
    ∃ p, getPayloadForUser [⟨"a.json", "1"⟩, ⟨"b.json", "2"⟩] "user-123" = some p ∧
      ∀ res ∈ List.replicate 5
          (experiment [⟨"a.json", "1"⟩, ⟨"b.json", "2"⟩] (some ⟨"user-123"⟩)),
        res = some (.ok ⟨"exp-localization-v1", p.name, p.content⟩) :=
  experiment_consistent_per_user [⟨"a.json", "1"⟩, ⟨"b.json", "2"⟩] (by simp)
    "user-123" (by simp) 5

theorem renderBody_ok_native (a b : String) (j : Json) :
    renderBody (.ok ⟨a, b, Json.serialize j⟩) =
      Json.serialize (Json.obj
        [("experimentId", Json.str a), ("selectedPayloadName", Json.str b),
         ("payload", j)]) := by
  simp [renderBody, Json.serialize, Json.serializeFields]

/-- C4: for a non-empty store the handler returns 400 with a JSON body
carrying an "error" string exactly when the body is unparsable or the
`userId` is missing/empty; otherwise it returns 200 with
`experimentId = "exp-localization-v1"`, the selected variant's name as
`selectedPayloadName`, and the variant's content spliced under
`"payload"` as a native JSON value (whenever the content is the
serialization of a JSON value `j`, the whole body is the serialization
of an object whose `payload` member is `j` itself, not an escaped
string). -/
theorem experiment_response_shape (store : List Payload) (body : Option ModelRequest)
    (hs : store ≠ []) :
    ∃ res, experiment store body = some res ∧
      ((statusCode res = 400 ∧ ∃ e, res = .badRequest e ∧
          renderBody res = Json.serialize (Json.obj [("error", Json.str e)])) ↔
        (body = none ∨ ∃ req, body = some req ∧ req.userID = "")) ∧
      ∀ req, body = some req → req.userID ≠ "" →
        ∃ p, getPayloadForUser store req.userID = some p ∧
          res = .ok ⟨"exp-localization-v1", p.name, p.content⟩ ∧
          statusCode res = 200 ∧
          ∀ j, p.content = Json.serialize j →
            renderBody res = Json.serialize (Json.obj
              [("experimentId", Json.str "exp-localization-v1"),
               ("selectedPayloadName", Json.str p.name), ("payload", j)]) := by
  match body with
  | none =>
      refine ⟨.badRequest "Invalid request body", rfl, ?_, ?_⟩
      · exact ⟨fun _ => Or.inl rfl, fun _ => ⟨rfl, _, rfl, rfl⟩⟩
      · intro req h; exact absurd h (by simp)
  | some req =>
      by_cases hu : req.userID = ""
      · refine ⟨.badRequest "userId is required", by simp [experiment, hu], ?_, ?_⟩
        · exact ⟨fun _ => Or.inr ⟨req, rfl, hu⟩, fun _ => ⟨rfl, _, rfl, rfl⟩⟩
        · intro req' h hne
          have : req' = req := (Option.some.inj h).symm
          exact absurd (this ▸ hu) hne
      · obtain ⟨p, hp⟩ := getPayloadForUser_isSome store hs req.userID
        refine ⟨.ok ⟨"exp-localization-v1", p.name, p.content⟩,
          by simp [experiment, hu, hp], ?_, ?_⟩
        · constructor
          · rintro ⟨hst, e, he, -⟩
            cases he
          · rintro (h | ⟨req', hreq', hu'⟩)
            · cases h
            · injection hreq' with h
              exact absurd (h ▸ hu') hu
        · intro req' h hne
          injection h with h
          subst h
          exact ⟨p, hp, rfl, rfl, fun j hj => hj ▸ renderBody_ok_native _ _ j⟩

/-- Witness for C4 at a concrete one-variant store and the body
`some ⟨"user-123"⟩`. -/
theorem experiment_response_shape_witness :
    ∃ res, experiment [⟨"a.json", "\x7b\x7d"⟩] (some ⟨"user-123"⟩) = some res ∧
      ((statusCode res = 400 ∧ ∃ e, res = .badRequest e ∧
          renderBody res = Json.serialize (Json.obj [("error", Json.str e)])) ↔
        ((some ⟨"user-123"⟩ : Option ModelRequest) = none ∨
          ∃ req, (some ⟨"user-123"⟩ : Option ModelRequest) = some req ∧ req.userID = "")) ∧
      ∀ req, (some ⟨"user-123"⟩ : Option ModelRequest) = some req → req.userID ≠ "" →
        ∃ p, getPayloadForUser [⟨"a.json", "\x7b\x7d"⟩] req.userID = some p ∧
          res = .ok ⟨"exp-localization-v1", p.name, p.content⟩ ∧
          statusCode res = 200 ∧
          ∀ j, p.content = Json.serialize j →
            renderBody res = Json.serialize (Json.obj
              [("experimentId", Json.str "exp-localization-v1"),
               ("selectedPayloadName", Json.str p.name), ("payload", j)]) :=
  experiment_response_shape [⟨"a.json", "\x7b\x7d"⟩] (some ⟨"user-123"⟩) (by simp)

/-! ## Load generator statistics (`cmd/loadtest/main.go`)

Go source:

    func calculatePercentile(sortedLatencies []int64, percentile float64) int64 {
        if len(sortedLatencies) == 0 {
            return 0
        }
        index := int(float64(len(sortedLatencies)) * percentile)
        if index >= len(sortedLatencies) {
            index = len(sortedLatencies) - 1
        }
        return sortedLatencies[index]
    }

and, in `printResults`:

    rps := float64(successRequests) / duration.Seconds()
    fastRps := float64(fastRequests) / duration.Seconds()
    slowRps := float64(slowRequests) / duration.Seconds()

`float64` arithmetic is modelled exactly over `ℚ`; the conversion
`int(x)` truncates toward zero.
-/

/-- Go's `int(x)` conversion of a `float64`, truncation toward zero,
over exact rationals. -/
def ratTrunc (q : ℚ) : Int := if 0 ≤ q then ⌊q⌋ else ⌈q⌉

/-- `calculatePercentile`.  The `index := int(...)` value is clamped to
`len - 1` when it is at least `len`, then used to index the slice;
`none` models the panic of a negative slice index (only reachable for a
negative percentile). -/
def calculatePercentile (sortedLatencies : List Int) (percentile : ℚ) : Option Int :=
  if sortedLatencies.length = 0 then some 0
  else if (sortedLatencies.length : Int) ≤
      ratTrunc ((sortedLatencies.length : ℚ) * percentile) then
    sortedLatencies.get? ((sortedLatencies.length : Int) - 1).toNat
  else if ratTrunc ((sortedLatencies.length : ℚ) * percentile) < 0 then none
  else sortedLatencies.get? (ratTrunc ((sortedLatencies.length : ℚ) * percentile)).toNat

theorem ratTrunc_eq_floor (q : ℚ) (hq : 0 ≤ q) : ratTrunc q = ⌊q⌋ := if_pos hq

/-- C7: for a non-empty latency list and a percentile `p ≥ 0`,
`calculatePercentile` returns the element at index `⌊p * count⌋`
clamped to the last valid index `count - 1` (an in-range index);
concretely, on `[10, 20, 30, 40, 50]` the p50 is 30, the p90 is 50 and
the p99 is 50. -/
theorem calculatePercentile_nearest_rank (l : List Int) (p : ℚ)
    (hl : l ≠ []) (hp : 0 ≤ p) :
    calculatePercentile l p =
        some (l.getD (min (⌊p * (l.length : ℚ)⌋).toNat (l.length - 1)) 0) ∧
      min (⌊p * (l.length : ℚ)⌋).toNat (l.length - 1) < l.length ∧
      calculatePercentile [10, 20, 30, 40, 50] (50 / 100) = some 30 ∧
      calculatePercentile [10, 20, 30, 40, 50] (90 / 100) = some 50 ∧
      calculatePercentile [10, 20, 30, 40, 50] (99 / 100) = some 50 := by
  have hlen : 0 < l.length := List.length_pos.mpr hl
  have hmin : min (⌊p * (l.length : ℚ)⌋).toNat (l.length - 1) < l.length :=
    lt_of_le_of_lt (min_le_right _ _) (by omega)
  have hfl : 0 ≤ ⌊p * (l.length : ℚ)⌋ := Int.floor_nonneg.mpr (by positivity)
  have hcomm : (l.length : ℚ) * p = p * (l.length : ℚ) := mul_comm _ _
  refine ⟨?_, hmin, ?_, ?_, ?_⟩
  · unfold calculatePercentile
    rw [if_neg (by omega), ratTrunc_eq_floor _ (by positivity), hcomm]
    set m : Int := ⌊p * (l.length : ℚ)⌋ with hm
    by_cases hge : (l.length : Int) ≤ m
    · rw [if_pos hge]
      have htn : ((l.length : Int) - 1).toNat = l.length - 1 := by omega
      have hmin' : min m.toNat (l.length - 1) = l.length - 1 := by
        apply min_eq_right; omega
      rw [htn, hmin', List.getD_eq_get?]
      rw [List.get?_eq_get (by omega)]
      rfl
    · rw [if_neg hge, if_neg (by omega)]
      have hmin' : min m.toNat (l.length - 1) = m.toNat := by
        apply min_eq_left; omega
      rw [hmin', List.getD_eq_get?]
      rw [List.get?_eq_get (by omega)]
      rfl
  · show calculatePercentile [10, 20, 30, 40, 50] (50 / 100) = some 30
    unfold calculatePercentile
    norm_num [ratTrunc]
    all_goals decide
  · show calculatePercentile [10, 20, 30, 40, 50] (90 / 100) = some 50
    unfold calculatePercentile
    norm_num [ratTrunc]
    all_goals decide
  · show calculatePercentile [10, 20, 30, 40, 50] (99 / 100) = some 50
    unfold calculatePercentile
    norm_num [ratTrunc]
    all_goals decide

/-- Witness for C7 at the sample set `[10, 20, 30, 40, 50]` and
`p = 50/100`. -/
theorem calculatePercentile_nearest_rank_witness :
    calculatePercentile [10, 20, 30, 40, 50] (50 / 100) =
        some (([10, 20, 30, 40, 50] : List Int).getD
          (min (⌊(50 / 100 : ℚ) * (([10, 20, 30, 40, 50] : List Int).length : ℚ)⌋).toNat
            (([10, 20, 30, 40, 50] : List Int).length - 1)) 0) ∧
      min (⌊(50 / 100 : ℚ) * (([10, 20, 30, 40, 50] : List Int).length : ℚ)⌋).toNat
          (([10, 20, 30, 40, 50] : List Int).length - 1) <
        ([10, 20, 30, 40, 50] : List Int).length ∧
      calculatePercentile [10, 20, 30, 40, 50] (50 / 100) = some 30 ∧
      calculatePercentile [10, 20, 30, 40, 50] (90 / 100) = some 50 ∧
      calculatePercentile [10, 20, 30, 40, 50] (99 / 100) = some 50 :=
  calculatePercentile_nearest_rank [10, 20, 30, 40, 50] (50 / 100)
    (by simp) (by norm_num)

/-- The class of a synthetic client, fast or slow. -/
inductive ClientClass where
  | fast : ClientClass
  | slow : ClientClass
deriving DecidableEq

/-- The outcome of one request: a success with its measured latency in
milliseconds, or a failure (transport error or non-200 status). -/
inductive ReqOutcome where
  | success : Int → ReqOutcome
  | failure : ReqOutcome
deriving DecidableEq

/-- One completed request of the load-test run. -/
structure ReqEvent where
  cls : ClientClass
  outcome : ReqOutcome
deriving DecidableEq

/-- The `Stats` accumulator of `cmd/loadtest/main.go`: atomic counters
plus the mutex-guarded latency collections. -/
structure Stats where
  totalRequests : Nat
  successRequests : Nat
  failedRequests : Nat
  fastRequests : Nat
  slowRequests : Nat
  fastLatencies : List Int
  slowLatencies : List Int
deriving DecidableEq

/-- The zero-valued `Stats` the run starts from. -/
def initialStats : Stats := ⟨0, 0, 0, 0, 0, [], []⟩

/-- The counter updates one request causes: `makeFastRequest` /
`makeSlowRequest` increment `totalRequests`, then on success increment
`successRequests` and append the latency to the class's collection,
otherwise increment `failedRequests`; afterwards `runFastClient` /
`runSlowClient` increment the class's request counter unconditionally. -/
def recordEvent (s : Stats) (e : ReqEvent) : Stats :=
  match e.cls, e.outcome with
  | .fast, .success lat =>
      { s with totalRequests := s.totalRequests + 1,
               successRequests := s.successRequests + 1,
               fastLatencies := s.fastLatencies ++ [lat],
               fastRequests := s.fastRequests + 1 }
  | .fast, .failure =>
      { s with totalRequests := s.totalRequests + 1,
               failedRequests := s.failedRequests + 1,
               fastRequests := s.fastRequests + 1 }
  | .slow, .success lat =>
      { s with totalRequests := s.totalRequests + 1,
               successRequests := s.successRequests + 1,
               slowLatencies := s.slowLatencies ++ [lat],
               slowRequests := s.slowRequests + 1 }
  | .slow, .failure =>
      { s with totalRequests := s.totalRequests + 1,
               failedRequests := s.failedRequests + 1,
               slowRequests := s.slowRequests + 1 }

/-- The statistics accumulated over a whole run's request events. -/
def accumStats (events : List ReqEvent) : Stats :=
  events.foldl recordEvent initialStats

/-- `printResults`: overall throughput `float64(successRequests) /
duration.Seconds()`. -/
def overallRps (s : Stats) (durationSec : ℚ) : ℚ :=
  (s.successRequests : ℚ) / durationSec

/-- `printResults`: fast-class throughput `float64(fastRequests) /
duration.Seconds()`. -/
def fastRps (s : Stats) (durationSec : ℚ) : ℚ :=
  (s.fastRequests : ℚ) / durationSec

/-- `printResults`: slow-class throughput `float64(slowRequests) /
duration.Seconds()`. -/
def slowRps (s : Stats) (durationSec : ℚ) : ℚ :=
  (s.slowRequests : ℚ) / durationSec

/-- The number of successful requests in a run, stated declaratively. -/
def countSuccess (events : List ReqEvent) : Nat :=
  (events.filter fun e => match e.outcome with | .success _ => true | .failure => false).length

/-- The number of requests a class issued (successes and failures),
stated declaratively. -/
def countClass (c : ClientClass) (events : List ReqEvent) : Nat :=
  (events.filter fun e => e.cls = c).length

/-- The number of successful requests of one class, stated
declaratively. -/
def countClassSuccess (c : ClientClass) (events : List ReqEvent) : Nat :=
  (events.filter fun e =>
    e.cls = c && match e.outcome with | .success _ => true | .failure => false).length

theorem foldl_successRequests (events : List ReqEvent) (s : Stats) :
    (events.foldl recordEvent s).successRequests =
      s.successRequests + countSuccess events := by
  induction events generalizing s with
  | nil => simp [countSuccess]
  | cons e rest ih =>
      rw [List.foldl_cons, ih]
      obtain ⟨c, o⟩ := e
      cases c <;> cases o <;>
        simp [recordEvent, countSuccess, List.filter_cons] <;> omega

theorem foldl_fastRequests (events : List ReqEvent) (s : Stats) :
    (events.foldl recordEvent s).fastRequests =
      s.fastRequests + countClass .fast events := by
  induction events generalizing s with
  | nil => simp [countClass]
  | cons e rest ih =>
      rw [List.foldl_cons, ih]
      obtain ⟨c, o⟩ := e
      cases c <;> cases o <;>
        simp [recordEvent, countClass, List.filter_cons] <;> omega

theorem foldl_slowRequests (events : List ReqEvent) (s : Stats) :
    (events.foldl recordEvent s).slowRequests =
      s.slowRequests + countClass .slow events := by
  induction events generalizing s with
  | nil => simp [countClass]
  | cons e rest ih =>
      rw [List.foldl_cons, ih]
      obtain ⟨c, o⟩ := e
      cases c <;> cases o <;>
        simp [recordEvent, countClass, List.filter_cons] <;> omega

/-- Counterexample for C9: a run whose single event is a failed
fast-client request.  The reported fast-client throughput over a
1-second run is 1 req/s (the per-class counter counts attempted
requests), while the fast class's successful-request count is 0, so the
claimed equality fails. -/
theorem throughput_per_class_counterexample :
    fastRps (accumStats [⟨.fast, .failure⟩]) 1 = 1 ∧
      countClassSuccess .fast [⟨.fast, .failure⟩] = 0 ∧
      fastRps (accumStats [⟨.fast, .failure⟩]) 1 ≠
        (countClassSuccess .fast [⟨.fast, .failure⟩] : ℚ) / 1 := by
  refine ⟨?_, rfl, ?_⟩
  · show ((accumStats [⟨.fast, .failure⟩]).fastRequests : ℚ) / 1 = 1
    norm_num [accumStats, recordEvent, initialStats]
  · show ((accumStats [⟨.fast, .failure⟩]).fastRequests : ℚ) / 1 ≠ _
    norm_num [accumStats, recordEvent, initialStats, countClassSuccess]

/-- C9 (amended): the overall throughput reported by the load generator
equals the successful-request count divided by the elapsed duration,
while each per-class figure equals that class's attempted-request count
(successes and failures together, as counted by the `fastRequests` /
`slowRequests` counters) divided by the elapsed duration. -/
theorem throughput_figures (events : List ReqEvent) (d : ℚ) :
    overallRps (accumStats events) d = (countSuccess events : ℚ) / d ∧
      fastRps (accumStats events) d = (countClass .fast events : ℚ) / d ∧
      slowRps (accumStats events) d = (countClass .slow events : ℚ) / d := by
  refine ⟨?_, ?_, ?_⟩
  · rw [overallRps, accumStats, foldl_successRequests]
    simp [initialStats]
  · rw [fastRps, accumStats, foldl_fastRequests]
    simp [initialStats]
  · rw [slowRps, accumStats, foldl_slowRequests]
    simp [initialStats]

/-! ## Allocation consistency verifier (`cmd/allocationtest/main.go`)

Workers record, per user, how many times each payload name was
received, but only for requests whose `makeRequest` succeeded:

    payload, err := makeRequest(client, serverURL+"/experiment", w.userID)
    if err != nil { failedRequests.Add(1); continue }
    successRequests.Add(1)
    mu.Lock()
    if userPayloads[w.userID] == nil { userPayloads[w.userID] = make(map[string]int) }
    userPayloads[w.userID][payload]++
    mu.Unlock()

`analyzeResults` then walks `userPayloads`: `TotalUsers =
len(userPayloads)`, a user is consistent iff they saw exactly one
distinct payload name, the user's most-frequent payload (strictly
greater count wins; the first encountered wins ties) feeds the
distribution tally.  Maps are modelled as association lists in
insertion order.
-/

/-- One request of the allocation test: the synthetic user it was issued
for and, when it succeeded, the `selectedPayloadName` it returned. -/
structure AllocResult where
  userID : String
  payloadName : Option String

/-- `counts[payload]++` on a `map[string]int` modelled as an association
list (insertion order). -/
def addPayloadCount : List (String × Nat) → String → List (String × Nat)
  | [], payload => [(payload, 1)]
  | (k, c) :: rest, payload =>
      if k = payload then (k, c + 1) :: rest
      else (k, c) :: addPayloadCount rest payload

/-- `userPayloads[userID][payload]++`, creating the inner map on first
success of that user. -/
def addUserPayload : List (String × List (String × Nat)) → String → String →
    List (String × List (String × Nat))
  | [], userID, payload => [(userID, [(payload, 1)])]
  | (u, counts) :: rest, userID, payload =>
      if u = userID then (u, addPayloadCount counts payload) :: rest
      else (u, counts) :: addUserPayload rest userID payload

/-- The worker-loop body for one request: a failed request only counts
as failed; a successful one records its payload name under its user. -/
def recordAlloc (m : List (String × List (String × Nat))) (r : AllocResult) :
    List (String × List (String × Nat)) :=
  match r.payloadName with
  | none => m
  | some p => addUserPayload m r.userID p

/-- The per-user records accumulated over the whole run. -/
def buildUserPayloads (results : List AllocResult) :
    List (String × List (String × Nat)) :=
  results.foldl recordAlloc []

/-- The `TestResults` fields the claims touch. -/
structure TestResults where
  totalUsers : Nat
  totalRequests : Nat
  successfulRequests : Nat
  failedRequests : Nat
  consistentUsers : Nat
  inconsistentUsers : Nat
  payloadDistribution : List (String × Nat)

/-- The user's most-frequently-observed payload name: `maxCount` starts
at 0 and a strictly greater count takes over, so the first encountered
name wins ties. -/
def primaryPayload (counts : List (String × Nat)) : String :=
  (counts.foldl (fun acc kc => if kc.2 > acc.2 then kc else acc) ("", 0)).1

/-- The per-user step of `analyzeResults`: consistency verdict
(`len(payloads) == 1`), distribution tally on the primary payload, and
the consistent/inconsistent counters. -/
def analyzeUser (res : TestResults) (up : String × List (String × Nat)) : TestResults :=
  { res with
    payloadDistribution := addPayloadCount res.payloadDistribution (primaryPayload up.2),
    consistentUsers :=
      if up.2.length = 1 then res.consistentUsers + 1 else res.consistentUsers,
    inconsistentUsers :=
      if up.2.length = 1 then res.inconsistentUsers else res.inconsistentUsers + 1 }

/-- `analyzeResults`: `TotalUsers = len(userPayloads)` plus the per-user
walk. -/
def analyzeResults (userPayloads : List (String × List (String × Nat)))
    (totalReqs successReqs failedReqs : Nat) : TestResults :=
  userPayloads.foldl analyzeUser
    ⟨userPayloads.length, totalReqs, successReqs, failedReqs, 0, 0, []⟩

/-- `runAllocationTest`: build the per-user records and analyze them,
with the counters the workers accumulated. -/
def runAllocationTest (results : List AllocResult) : TestResults :=
  analyzeResults (buildUserPayloads results) results.length
    (results.filter fun r => r.payloadName.isSome).length
    (results.filter fun r => r.payloadName.isNone).length

/-- Total user tally of a distribution table. -/
def sumCounts (counts : List (String × Nat)) : Nat :=
  (counts.map Prod.snd).sum

theorem addUserPayload_keys (m : List (String × List (String × Nat))) (uid p : String) :
    (addUserPayload m uid p).map Prod.fst =
      if uid ∈ m.map Prod.fst then m.map Prod.fst else m.map Prod.fst ++ [uid] := by
  induction m with
  | nil => simp [addUserPayload]
  | cons e rest ih =>
      obtain ⟨u, counts⟩ := e
      by_cases hu : u = uid
      · subst hu
        simp [addUserPayload]
      · rw [show addUserPayload ((u, counts) :: rest) uid p =
            (u, counts) :: addUserPayload rest uid p from by simp [addUserPayload, hu]]
        by_cases hmem : uid ∈ rest.map Prod.fst
        · simp [ih, hmem, Ne.symm hu]
        · simp [ih, hmem, Ne.symm hu]

theorem foldl_recordAlloc_keys (results : List AllocResult)
    (m : List (String × List (String × Nat))) (v : String) :
    v ∈ (results.foldl recordAlloc m).map Prod.fst →
      v ∈ m.map Prod.fst ∨
        ∃ r ∈ results, r.payloadName ≠ none ∧ r.userID = v := by
  induction results generalizing m with
  | nil => intro h; exact Or.inl h
  | cons r rest ih =>
      intro h
      rw [List.foldl_cons] at h
      rcases ih (recordAlloc m r) h with hk | ⟨r', hr', hs', hv'⟩
      · match hr : r.payloadName with
        | none =>
            rw [recordAlloc, hr] at hk
            exact Or.inl hk
        | some p =>
            rw [recordAlloc, hr] at hk
            rw [addUserPayload_keys] at hk
            by_cases hmem : r.userID ∈ m.map Prod.fst
            · rw [if_pos hmem] at hk
              exact Or.inl hk
            · rw [if_neg hmem] at hk
              rcases List.mem_append.mp hk with hk | hk
              · exact Or.inl hk
              · refine Or.inr ⟨r, List.mem_cons_self _ _, by simp [hr], ?_⟩
                exact (List.mem_singleton.mp hk).symm
      · exact Or.inr ⟨r', List.mem_cons_of_mem _ hr', hs', hv'⟩

theorem foldl_recordAlloc_not_mem (results : List AllocResult) (u : String)
    (hu : ∀ r ∈ results, r.userID = u → r.payloadName = none)
    (m : List (String × List (String × Nat))) (hm : u ∉ m.map Prod.fst) :
    u ∉ (results.foldl recordAlloc m).map Prod.fst := by
  intro h
  rcases foldl_recordAlloc_keys results m u h with hk | ⟨r, hr, hs, hv⟩
  · exact hm hk
  · exact hs (hu r hr hv)

theorem sumCounts_addPayloadCount (counts : List (String × Nat)) (p : String) :
    sumCounts (addPayloadCount counts p) = sumCounts counts + 1 := by
  induction counts with
  | nil => simp [addPayloadCount, sumCounts]
  | cons e rest ih =>
      obtain ⟨k, c⟩ := e
      by_cases hk : k = p
      · simp [addPayloadCount, hk, sumCounts]
        omega
      · simp [addPayloadCount, hk, sumCounts] at ih ⊢
        omega

theorem foldl_analyzeUser_fields (ups : List (String × List (String × Nat)))
    (res : TestResults) :
    (ups.foldl analyzeUser res).totalUsers = res.totalUsers ∧
      (ups.foldl analyzeUser res).failedRequests = res.failedRequests ∧
      (ups.foldl analyzeUser res).consistentUsers +
          (ups.foldl analyzeUser res).inconsistentUsers =
        res.consistentUsers + res.inconsistentUsers + ups.length ∧
      sumCounts (ups.foldl analyzeUser res).payloadDistribution =
        sumCounts res.payloadDistribution + ups.length := by
  induction ups generalizing res with
  | nil => simp
  | cons up rest ih =>
      rw [List.foldl_cons]
      obtain ⟨h1, h2, h3, h4⟩ := ih (analyzeUser res up)
      refine ⟨h1.trans rfl, h2.trans rfl, ?_, ?_⟩
      · rw [h3]
        by_cases hc : up.2.length = 1 <;>
          simp [analyzeUser, hc] <;> omega
      · rw [h4]
        simp [analyzeUser, sumCounts_addPayloadCount]
        omega

/-- C10: a synthetic user all of whose requests failed appears in no
per-user record: they are not a key of the accumulated `userPayloads`,
the reported `TotalUsers` equals the number of per-user records and
every record stems from some successful request, the
consistent/inconsistent verdict counters and the payload-distribution
tally each account for exactly the `TotalUsers` recorded users (so the
failed-only user contributes to none of them), and the user's requests
are counted only in `FailedRequests`, which tallies exactly the failed
requests of the run. -/
theorem failed_user_excluded (results : List AllocResult) (u : String)
    (hu : ∀ r ∈ results, r.userID = u → r.payloadName = none) :
    u ∉ (buildUserPayloads results).map Prod.fst ∧
      (runAllocationTest results).totalUsers = (buildUserPayloads results).length ∧
      (∀ v ∈ (buildUserPayloads results).map Prod.fst,
        ∃ r ∈ results, r.payloadName ≠ none ∧ r.userID = v) ∧
      (runAllocationTest results).consistentUsers +
          (runAllocationTest results).inconsistentUsers =
        (runAllocationTest results).totalUsers ∧
      sumCounts (runAllocationTest results).payloadDistribution =
        (runAllocationTest results).totalUsers ∧
      (runAllocationTest results).failedRequests =
        (results.filter fun r => r.payloadName.isNone).length ∧
      (results.filter fun r => r.userID = u).length ≤
        (runAllocationTest results).failedRequests := by
  obtain ⟨h1, h2, h3, h4⟩ :=
    foldl_analyzeUser_fields (buildUserPayloads results)
      ⟨(buildUserPayloads results).length, results.length,
        (results.filter fun r => r.payloadName.isSome).length,
        (results.filter fun r => r.payloadName.isNone).length, 0, 0, []⟩
  refine ⟨foldl_recordAlloc_not_mem results u hu [] (by simp), ?_, ?_, ?_, ?_, ?_, ?_⟩
  · exact h1
  · intro v hv
    rcases foldl_recordAlloc_keys results [] v hv with hk | hk
    · simp at hk
    · exact hk
  · rw [show (runAllocationTest results).consistentUsers +
        (runAllocationTest results).inconsistentUsers =
        0 + 0 + (buildUserPayloads results).length from h3]
    rw [show (runAllocationTest results).totalUsers =
        (buildUserPayloads results).length from h1]
    omega
  · rw [show sumCounts (runAllocationTest results).payloadDistribution =
        sumCounts [] + (buildUserPayloads results).length from h4]
    rw [show (runAllocationTest results).totalUsers =
        (buildUserPayloads results).length from h1]
    simp [sumCounts]
  · exact h2
  · rw [show (runAllocationTest results).failedRequests =
        (results.filter fun r => r.payloadName.isNone).length from h2]
    rw [← List.countP_eq_length_filter, ← List.countP_eq_length_filter]
    refine List.countP_mono_left fun r hr hru => ?_
    have : r.payloadName = none := hu r hr (by simpa using hru)
    simp [this]

/-- Witness for C10: a run over two users where every request of
`"u-fail"` failed and `"u-ok"` succeeded twice. -/
theorem failed_user_excluded_witness :
    "u-fail" ∉ (buildUserPayloads
        [⟨"u-fail", none⟩, ⟨"u-ok", some "a.json"⟩,
         ⟨"u-fail", none⟩, ⟨"u-ok", some "a.json"⟩]).map Prod.fst ∧
      (runAllocationTest
          [⟨"u-fail", none⟩, ⟨"u-ok", some "a.json"⟩,
           ⟨"u-fail", none⟩, ⟨"u-ok", some "a.json"⟩]).totalUsers =
        (buildUserPayloads
          [⟨"u-fail", none⟩, ⟨"u-ok", some "a.json"⟩,
           ⟨"u-fail", none⟩, ⟨"u-ok", some "a.json"⟩]).length ∧
      (∀ v ∈ (buildUserPayloads
          [⟨"u-fail", none⟩, ⟨"u-ok", some "a.json"⟩,
           ⟨"u-fail", none⟩, ⟨"u-ok", some "a.json"⟩]).map Prod.fst,
        ∃ r ∈ [⟨"u-fail", none⟩, ⟨"u-ok", some "a.json"⟩,
           ⟨"u-fail", none⟩, (⟨"u-ok", some "a.json"⟩ : AllocResult)],
          r.payloadName ≠ none ∧ r.userID = v) ∧
      (runAllocationTest
          [⟨"u-fail", none⟩, ⟨"u-ok", some "a.json"⟩,
           ⟨"u-fail", none⟩, ⟨"u-ok", some "a.json"⟩]).consistentUsers +
          (runAllocationTest
            [⟨"u-fail", none⟩, ⟨"u-ok", some "a.json"⟩,
             ⟨"u-fail", none⟩, ⟨"u-ok", some "a.json"⟩]).inconsistentUsers =
        (runAllocationTest
          [⟨"u-fail", none⟩, ⟨"u-ok", some "a.json"⟩,
           ⟨"u-fail", none⟩, ⟨"u-ok", some "a.json"⟩]).totalUsers ∧
      sumCounts (runAllocationTest
          [⟨"u-fail", none⟩, ⟨"u-ok", some "a.json"⟩,
           ⟨"u-fail", none⟩, ⟨"u-ok", some "a.json"⟩]).payloadDistribution =
        (runAllocationTest
          [⟨"u-fail", none⟩, ⟨"u-ok", some "a.json"⟩,
           ⟨"u-fail", none⟩, ⟨"u-ok", some "a.json"⟩]).totalUsers ∧
      (runAllocationTest
          [⟨"u-fail", none⟩, ⟨"u-ok", some "a.json"⟩,
           ⟨"u-fail", none⟩, ⟨"u-ok", some "a.json"⟩]).failedRequests =
        ([⟨"u-fail", none⟩, ⟨"u-ok", some "a.json"⟩,
          ⟨"u-fail", none⟩, (⟨"u-ok", some "a.json"⟩ : AllocResult)].filter
            fun r => r.payloadName.isNone).length ∧
      ([⟨"u-fail", none⟩, ⟨"u-ok", some "a.json"⟩,
        ⟨"u-fail", none⟩, (⟨"u-ok", some "a.json"⟩ : AllocResult)].filter
          fun r => r.userID = "u-fail").length ≤
        (runAllocationTest
          [⟨"u-fail", none⟩, ⟨"u-ok", some "a.json"⟩,
           ⟨"u-fail", none⟩, ⟨"u-ok", some "a.json"⟩]).failedRequests :=
  failed_user_excluded
    [⟨"u-fail", none⟩, ⟨"u-ok", some "a.json"⟩,
     ⟨"u-fail", none⟩, ⟨"u-ok", some "a.json"⟩] "u-fail"
    (by decide)
